import Mathlib

/-!
Shallow embedding of the eagleai-frontend video-tracking core
(mcpService / videoService / MediaViewer), with theorems checking the
natural-language specification against the code.

Conventions: JS numbers are modelled as `ℚ` (with `jsRound` for
`Math.round` and `Int.floor` for `Math.floor`); pixel indices and frame
indices are `ℕ`; raster images are dimension-indexed pixel functions;
the asynchronous seek/capture environment is an explicit oracle.
-/

namespace EagleAI

/-- JS `Math.round` on a rational: round half away from zero is
`⌊q + 1/2⌋` for the non-negative values that occur here (JS rounds
half toward +∞). -/
def jsRound (q : ℚ) : ℤ := ⌊q + 1/2⌋

/-! ## RLEMaskDecoder (`decodeRLEToImageData` in part_003) -/

/-- An RLE mask as received from the model: `size = (height, width)`
and the alternating run lengths. -/
structure RLEMask where
  size : Nat × Nat
  counts : List Nat
deriving Repr, DecidableEq

/-- One iteration of the decode loop of `decodeRLEToImageData`:
state is `(p, val, bitmap)`; a foreground run (`val = 1`) marks pixels
`[p, min (p+count) wh)`, and the cursor always advances and the fill
value always flips. -/
def decodeStep (wh : Nat) : Nat × Nat × (Nat → Bool) → Nat → Nat × Nat × (Nat → Bool)
  | (p, val, bm), count =>
    (p + count, 1 - val,
      if val = 1 then
        fun j => if p ≤ j ∧ j < min (p + count) wh then true else bm j
      else bm)

/-- The decoded bitmap of `decodeRLEToImageData` as a pixel predicate on
linear (row-major) pixel indices, starting from cursor 0, background
fill value, and an all-transparent image of `wh` pixels. -/
def decodeBitmap (counts : List Nat) (wh : Nat) : Nat → Bool :=
  ((counts.foldl (decodeStep wh) (0, 0, fun _ => false))).2.2

/-- Function `decodeRLEToImageData mask width height`: the `width*height`-pixel
output raster of the decoder, row-major, `true` = set (opaque white in
the code), `false` = unset (transparent). -/
def decodeRLEToImageData (mask : RLEMask) (width height : Nat) : List Bool :=
  (List.range (width * height)).map (decodeBitmap mask.counts (width * height))

/-- Reference predicate, following the spec's description of the
algorithm: pixel `j` is set iff some run with fill value 1 covers it,
where the cursor starts at `p` with fill value `val` and advances by
each count, flipping the value. -/
def rleCovers : List Nat → Nat → Nat → Nat → Bool
  | [], _, _, _ => false
  | c :: rest, p, val, j =>
    (decide (val = 1 ∧ p ≤ j ∧ j < p + c)) || rleCovers rest (p + c) (1 - val) j

/-! ## FrameRateReconciler (`trackVideoText` / `trackVideoTextFast`) -/

/-- The sampled-rate estimate (`sam3FPS` in the code): when the source
duration is positive and the maximal returned frame index is positive,
`Math.round((maxFrameIdx + 1) / duration)`; otherwise the default 30. -/
def sam3FPS (duration : ℚ) (maxFrameIdx : Nat) : ℤ :=
  if 0 < duration ∧ 0 < maxFrameIdx then jsRound (((maxFrameIdx : ℚ) + 1) / duration)
  else 30

/-- The sampled rate as the spec's words describe it:
`round((max(frameIndex)+1)/duration)` clamped to a minimum of 1. -/
def specSampledRate (duration : ℚ) (maxFrameIdx : Nat) : ℤ :=
  max 1 (jsRound (((maxFrameIdx : ℚ) + 1) / duration))

/-- The FPS multiplier heuristic: 5 when `sam3FPS ≤ 10`, 2 when
`sam3FPS ≤ 15`, else 1. -/
def fpsMultiplier (fps : ℤ) : ℤ :=
  if fps ≤ 10 then 5 else if fps ≤ 15 then 2 else 1

/-- The estimated original source rate: `sam3FPS * fpsMultiplier`. -/
def originalFPS (fps : ℤ) : ℤ := fps * fpsMultiplier fps

/-! ## FrameExtractor (`extractVideoFrames` in part_003)

The browser environment (seeked events, canvas capture, bitmap
decoding) is modelled by an oracle mapping a frame index to the outcome
of its seek-and-capture attempt; captured images are labelled by `ℕ`. -/

/-- Outcome of one seek-and-capture attempt: the 5000 ms timer fires
before the seek completes, or the frame is captured as image `img`,
or the capture itself fails (blob/bitmap creation or draw error). -/
inductive SeekOutcome where
  | timeout
  | captureOk (img : Nat)
  | captureFail
deriving Repr, DecidableEq

/-- The per-frame seek timeout of `extractVideoFrames`, in
milliseconds. -/
def seekTimeoutMs : Nat := 5000

/-- The sequential extraction loop: each requested index is converted
to a time `idx / fps`; an index whose time exceeds the duration is
skipped; a timeout rejects the whole extraction; a capture failure
skips that index and continues; a successful capture appends the
image. -/
def extractLoop (oracle : Nat → SeekOutcome) (fps duration : ℚ) :
    List Nat → List Nat → Except String (List Nat)
  | [], acc => .ok acc.reverse
  | idx :: rest, acc =>
    if duration < (idx : ℚ) / fps then extractLoop oracle fps duration rest acc
    else
      match oracle idx with
      | .timeout => .error "Timeout waiting for frame"
      | .captureOk img => extractLoop oracle fps duration rest (img :: acc)
      | .captureFail => extractLoop oracle fps duration rest acc

/-- Function `extractVideoFrames`: run the extraction loop over the requested
indices with an empty accumulator. The result is a bare list of
images (no frame-index association), or an error. -/
def extractVideoFrames (oracle : Nat → SeekOutcome) (frameIndices : List Nat)
    (fps duration : ℚ) : Except String (List Nat) :=
  extractLoop oracle fps duration frameIndices []

/-- The images an extraction run captures, in request order: requested
indices whose time is within the duration and whose capture succeeds. -/
def capturedImages (oracle : Nat → SeekOutcome) (fps duration : ℚ)
    (frameIndices : List Nat) : List Nat :=
  frameIndices.filterMap fun (idx : Nat) =>
    if duration < (idx : ℚ) / fps then none
    else
      match oracle idx with
      | .captureOk img => some img
      | _ => none

/-- JS `Array.prototype.indexOf`: the position of the first occurrence
of `a`, or `none` (JS: `-1`) when absent. -/
def jsIndexOf : List Nat → Nat → Option Nat
  | [], _ => none
  | b :: rest, a => if b = a then some 0 else (jsIndexOf rest a).map (· + 1)

/-- The frame-lookup step of `trackVideoText` (lines 1028–1035): the
packet for `frameIdx` is composited onto
`originalFrames[frameIndices.indexOf(frameIdx)]`, and skipped when the
index is not found or the position is past the end of the extracted
array. -/
def frameForPacket (frameIndices originalFrames : List Nat) (frameIdx : Nat) :
    Option Nat :=
  match jsIndexOf frameIndices frameIdx with
  | none => none
  | some pos => originalFrames[pos]?

/-! ## PlaybackSynchronizer (`updateOverlay` in part_002) -/

/-- The playback progress `Math.max(0, Math.min(1, currentTime / duration))`. -/
def playbackProgress (currentTime duration : ℚ) : ℚ :=
  max 0 (min 1 (currentTime / duration))

/-- The displayed overlay index:
`Math.min(frameCount - 1, Math.floor(progress * frameCount))`
(evaluated by `updateOverlay` only when `duration > 0` and
`frameCount > 0`). -/
def overlayFrameIndex (currentTime duration : ℚ) (frameCount : Nat) : ℤ :=
  min ((frameCount : ℤ) - 1) ⌊playbackProgress currentTime duration * (frameCount : ℚ)⌋

/-! ## OverlayCompositor (`colorForObjectId` / `renderMasksOnFrame`) -/

/-- The fixed ten-color palette of `colorForObjectId`. -/
def palette : List (Nat × Nat × Nat) :=
  [(255, 0, 0), (0, 255, 0), (0, 0, 255), (255, 255, 0), (255, 0, 255),
   (0, 255, 255), (255, 165, 0), (128, 0, 128), (255, 192, 203), (0, 128, 0)]

/-- Function `colorForObjectId`: the palette color at `objId % colors.length`. -/
def colorForObjectId (objId : Nat) : Nat × Nat × Nat :=
  palette.getD (objId % palette.length) (0, 0, 0)

/-- The object id `renderMasksOnFrame` actually uses for the mask at
position `i`: `objectIds[i] || i` in JS, so the listed id when it is
present and nonzero (zero is falsy), and the position `i` otherwise. -/
def effectiveObjectId (objectIds : List Nat) (i : Nat) : Nat :=
  match objectIds.get? i with
  | some id => if id = 0 then i else id
  | none => i

/-- The overlay color of the mask at position `i` of a frame packet. -/
def maskOverlayColor (objectIds : List Nat) (i : Nat) : Nat × Nat × Nat :=
  colorForObjectId (effectiveObjectId objectIds i)

/-- A raster image: dimensions plus a pixel function (row `y`,
column `x`, channel values as rationals so that alpha blending is
exact). -/
structure Img where
  width : Nat
  height : Nat
  px : Nat → Nat → ℚ × ℚ × ℚ

/-- Source-over blend of an opaque overlay color at global alpha
`alpha` onto an existing pixel. -/
def blend (alpha : ℚ) (c : Nat × Nat × Nat) (under : ℚ × ℚ × ℚ) : ℚ × ℚ × ℚ :=
  (alpha * (c.1 : ℚ) + (1 - alpha) * under.1,
   alpha * (c.2.1 : ℚ) + (1 - alpha) * under.2.1,
   alpha * (c.2.2 : ℚ) + (1 - alpha) * under.2.2)

/-- Whether the decoded mask is set at mask-resolution coordinates
`(mx, my)` (row-major linear index `my * maskWidth + mx`). -/
def maskSetAt (mask : RLEMask) (mx my : Nat) : Bool :=
  decodeBitmap mask.counts (mask.size.2 * mask.size.1) (my * mask.size.2 + mx)

/-- Composite one decoded mask onto an image: each destination pixel
samples the mask by nearest-neighbor (floor) scaling from frame
resolution to mask resolution (the code disables smoothing for this),
and set pixels are blended with the mask's color at the given alpha. -/
def applyMaskToImg (alpha : ℚ) (img : Img) (mask : RLEMask)
    (color : Nat × Nat × Nat) : Img :=
  { img with
    px := fun y x =>
      let sx := x * mask.size.2 / img.width
      let sy := y * mask.size.1 / img.height
      if maskSetAt mask sx sy then blend alpha color (img.px y x) else img.px y x }

/-- Function `renderMasksOnFrame`: draw the original frame, then composite each
mask in list order with the color of its (effective) object id. -/
def renderMasksOnFrame (frameImage : Img) (masks : List RLEMask)
    (objectIds : List Nat) (alpha : ℚ) : Img :=
  (List.range masks.length).foldl
    (fun img i =>
      match masks.get? i with
      | some mask => applyMaskToImg alpha img mask (maskOverlayColor objectIds i)
      | none => img)
    frameImage

/-! ## VideoAssembler (`createVideoFromFrames`) -/

/-- The input-validation gate of `createVideoFromFrames`: a missing
(`none`, JS null/undefined) or empty frame array rejects with
"No frames provided"; otherwise assembly proceeds with the frames and
the pacing rate. -/
def createVideoFromFrames (frames : Option (List String)) (fps : ℚ) :
    Except String (List String × ℚ) :=
  match frames with
  | none => .error "No frames provided"
  | some fs => if fs.length = 0 then .error "No frames provided" else .ok (fs, fps)

/-! ## TrimPipeline (`trimVideoFile` in videoService.ts) -/

/-- The progress value `trimVideoFile` reports on each draw-loop
iteration: `Math.min(100, Math.max(0, (current / duration) * 100))`
with `duration = endTime - startTime` and
`current = currentTime - startTime`. -/
def trimReportedProgress (startTime endTime currentTime : ℚ) : ℚ :=
  min 100 (max 0 ((currentTime - startTime) / (endTime - startTime) * 100))

/-- The draw loop's stop test: recording stops when the video has
ended or `currentTime >= endTime`. -/
def trimShouldStop (ended : Bool) (currentTime endTime : ℚ) : Bool :=
  ended || decide (endTime ≤ currentTime)

/-- The trim progress as the spec's words describe it:
`(currentTime - startTime) / (endTime - startTime)` clamped to
`[0, 1]`. -/
def specTrimProgress (startTime endTime currentTime : ℚ) : ℚ :=
  min 1 (max 0 ((currentTime - startTime) / (endTime - startTime)))

/-! ## Theorems -/

/-- Unrolling the decode loop: a pixel within the canvas is set in the
final bitmap iff it was set in the starting bitmap or some foreground
run of the remaining counts covers it. -/
theorem foldl_decodeStep_apply (wh : Nat) (counts : List Nat) :
    ∀ (p val : Nat) (bm : Nat → Bool) (j : Nat), j < wh →
      (counts.foldl (decodeStep wh) (p, val, bm)).2.2 j
        = (bm j || rleCovers counts p val j) := by
  induction counts with
  | nil => intro p val bm j _; simp [rleCovers]
  | cons c rest ih =>
    intro p val bm j hj
    have hstep : decodeStep wh (p, val, bm) c
        = (p + c, 1 - val,
            if val = 1 then
              (fun j => if p ≤ j ∧ j < min (p + c) wh then true else bm j)
            else bm) := rfl
    rw [List.foldl_cons, hstep, ih (p + c) (1 - val) _ j hj]
    have hbm : (if val = 1 then
          (fun j => if p ≤ j ∧ j < min (p + c) wh then true else bm j)
        else bm) j = (bm j || decide (val = 1 ∧ p ≤ j ∧ j < p + c)) := by
      by_cases hv : val = 1
      · subst hv
        by_cases hr : p ≤ j ∧ j < p + c
        · have hm : p ≤ j ∧ j < min (p + c) wh := ⟨hr.1, lt_min hr.2 hj⟩
          simp [hm, hr]
        · have hm : ¬(p ≤ j ∧ j < min (p + c) wh) := by
            intro hcon
            exact hr ⟨hcon.1, lt_of_lt_of_le hcon.2 (min_le_left _ _)⟩
          simp [hm, hr]
          intro h1 h2 _
          exact absurd ⟨h1, h2⟩ hr
      · simp [hv]
    rw [hbm, rleCovers, Bool.or_assoc]

/-- C1: the RLE decoder walks a cursor `p` from 0 with an alternating
fill value starting at background; a pixel of the `w*h`-pixel output is
set exactly when a foreground run covers it (row-major, clipped to the
canvas), and the mask `{size: [2,4], counts: [2,2,2,2]}` decodes to the
row-major pixel sequence `[0,0,1,1,0,0,1,1]`. -/
theorem C1_rle_decoder :
    (∀ (counts : List Nat) (w h j : Nat), j < w * h →
      (decodeRLEToImageData ⟨(h, w), counts⟩ w h)[j]?
        = some (rleCovers counts 0 0 j))
    ∧ decodeRLEToImageData ⟨(2, 4), [2, 2, 2, 2]⟩ 4 2
        = [false, false, true, true, false, false, true, true] := by
  constructor
  · intro counts w h j hj
    unfold decodeRLEToImageData decodeBitmap
    rw [List.getElem?_map, List.getElem?_range hj]
    simp only [Option.map_some']
    rw [foldl_decodeStep_apply (w * h) counts 0 0 _ j hj]
    simp
  · decide

/-- Witness for C1 at the spec's concrete mask. -/
theorem C1_rle_decoder_witness :
    (2 < 4 * 2
      ∧ (decodeRLEToImageData ⟨(2, 4), [2, 2, 2, 2]⟩ 4 2)[2]?
          = some (rleCovers [2, 2, 2, 2] 0 0 2))
    ∧ decodeRLEToImageData ⟨(2, 4), [2, 2, 2, 2]⟩ 4 2
        = [false, false, true, true, false, false, true, true] :=
  ⟨⟨by decide, C1_rle_decoder.1 [2, 2, 2, 2] 4 2 2 (by decide)⟩, C1_rle_decoder.2⟩

/-- C2 counterexample: with duration 10 s and maximal frame index 1,
the code computes `round(2/10) = 0`, while the spec's clamped value is
`max 1 (round(2/10)) = 1` — there is no minimum clamp in the code. -/
theorem C2_sampled_rate_counterexample :
    sam3FPS 10 1 = 0 ∧ specSampledRate 10 1 = 1
      ∧ sam3FPS 10 1 ≠ specSampledRate 10 1 := by
  refine ⟨?_, ?_, ?_⟩ <;> norm_num [sam3FPS, specSampledRate, jsRound]

/-- C2 (amended): when the duration is positive and the maximal frame
index is positive, the sampled rate is `round((max(frameIndex)+1) /
duration)` — within 1/2 of the true ratio but NOT clamped to a minimum
of 1 — and it defaults to 30 when the duration is non-positive (which
includes the NaN of an unavailable duration) or the maximal frame index
is 0. -/
theorem C2_sampled_rate (duration : ℚ) (maxFrameIdx : Nat) :
    (0 < duration → 0 < maxFrameIdx →
      sam3FPS duration maxFrameIdx = ⌊((maxFrameIdx : ℚ) + 1) / duration + 1/2⌋
      ∧ ((maxFrameIdx : ℚ) + 1) / duration - 1/2 < (sam3FPS duration maxFrameIdx : ℚ)
      ∧ (sam3FPS duration maxFrameIdx : ℚ) ≤ ((maxFrameIdx : ℚ) + 1) / duration + 1/2)
    ∧ (duration ≤ 0 ∨ maxFrameIdx = 0 → sam3FPS duration maxFrameIdx = 30) := by
  constructor
  · intro hd hm
    have heq : sam3FPS duration maxFrameIdx
        = ⌊((maxFrameIdx : ℚ) + 1) / duration + 1/2⌋ := by
      rw [sam3FPS, if_pos ⟨hd, hm⟩, jsRound]
    refine ⟨heq, ?_, ?_⟩
    · rw [heq]
      have := Int.lt_floor_add_one (((maxFrameIdx : ℚ) + 1) / duration + 1/2)
      linarith
    · rw [heq]
      have := Int.floor_le (((maxFrameIdx : ℚ) + 1) / duration + 1/2)
      linarith
  · intro h
    rw [sam3FPS, if_neg]
    rintro ⟨hd, hm⟩
    rcases h with h | h
    · exact absurd hd (not_lt.mpr h)
    · omega

/-- Witness for C2 at duration 1 s, maximal frame index 10 (formula
case) and duration 0, maximal frame index 5 (default case). -/
theorem C2_sampled_rate_witness :
    sam3FPS 1 10 = ⌊(((10 : Nat) : ℚ) + 1) / 1 + 1/2⌋ ∧ sam3FPS 0 5 = 30 :=
  ⟨((C2_sampled_rate 1 10).1 (by norm_num) (by norm_num)).1,
   (C2_sampled_rate 0 5).2 (Or.inl le_rfl)⟩

/-- C3: the source rate is the sampled rate times the multiplier, and
the multiplier is 5 for sampled rates up to 10, 2 for 11–15, and 1
above 15; in particular 10 ↦ 5, 11 ↦ 2, 16 ↦ 1. -/
theorem C3_fps_multiplier (r : ℤ) :
    originalFPS r = r * fpsMultiplier r
    ∧ (r ≤ 10 → fpsMultiplier r = 5)
    ∧ (10 < r → r ≤ 15 → fpsMultiplier r = 2)
    ∧ (15 < r → fpsMultiplier r = 1)
    ∧ fpsMultiplier 10 = 5 ∧ fpsMultiplier 11 = 2 ∧ fpsMultiplier 16 = 1 := by
  refine ⟨rfl, ?_, ?_, ?_, by decide, by decide, by decide⟩
  · intro h
    rw [fpsMultiplier, if_pos h]
  · intro h1 h2
    rw [fpsMultiplier, if_neg (by omega), if_pos h2]
  · intro h
    rw [fpsMultiplier, if_neg (by omega), if_neg (by omega)]

/-- Witness for C3 at the boundary sampled rates 10, 11 and 16. -/
theorem C3_fps_multiplier_witness :
    fpsMultiplier 10 = 5 ∧ fpsMultiplier 11 = 2 ∧ fpsMultiplier 16 = 1 :=
  ⟨(C3_fps_multiplier 10).2.1 (by decide),
   (C3_fps_multiplier 11).2.2.1 (by decide) (by decide),
   (C3_fps_multiplier 16).2.2.2.1 (by decide)⟩

/-- C4 counterexample: with two requested indices where index 0 times
out and index 1 would capture, the whole extraction rejects with the
timeout error — it does not continue and produce the partial result
`[1]` the claim requires. -/
theorem C4_timeout_counterexample :
    extractVideoFrames (fun i => if i = 0 then .timeout else .captureOk i) [0, 1] 30 1
      = .error "Timeout waiting for frame"
    ∧ (extractVideoFrames (fun i => if i = 0 then .timeout else .captureOk i)
        [0, 1] 30 1).isOk = false := by
  constructor
  · norm_num [extractVideoFrames, extractLoop]
  · norm_num [extractVideoFrames, extractLoop, Except.isOk, Except.toBool]

/-- C4 (amended): each seek-and-capture is bounded by the 5000 ms
timeout constant, but when the timeout fires the WHOLE extraction
rejects with a timeout error; only a per-frame capture failure
(blob/bitmap creation or draw error) is skipped with extraction
continuing on the remaining indices. -/
theorem C4_timeout_aborts :
    seekTimeoutMs = 5000
    ∧ (∀ (oracle : Nat → SeekOutcome) (fps duration : ℚ) (idx : Nat)
        (rest acc : List Nat),
        ¬duration < (idx : ℚ) / fps → oracle idx = .timeout →
          extractLoop oracle fps duration (idx :: rest) acc
            = .error "Timeout waiting for frame")
    ∧ (∀ (oracle : Nat → SeekOutcome) (fps duration : ℚ) (idx : Nat)
        (rest acc : List Nat),
        ¬duration < (idx : ℚ) / fps → oracle idx = .captureFail →
          extractLoop oracle fps duration (idx :: rest) acc
            = extractLoop oracle fps duration rest acc) := by
  refine ⟨rfl, ?_, ?_⟩ <;>
    · intro oracle fps duration idx rest acc hskip houtcome
      rw [extractLoop, if_neg hskip, houtcome]

/-- Witness for C4: a frame whose seek times out at the head of the
request list rejects the loop, and one whose capture fails is skipped. -/
theorem C4_timeout_aborts_witness :
    seekTimeoutMs = 5000
    ∧ extractLoop (fun _ => .timeout) 30 1 [0] []
        = .error "Timeout waiting for frame"
    ∧ extractLoop (fun _ => .captureFail) 30 1 [0] []
        = extractLoop (fun _ => .captureFail) 30 1 [] [] :=
  ⟨C4_timeout_aborts.1,
   C4_timeout_aborts.2.1 _ 30 1 0 [] [] (by norm_num) rfl,
   C4_timeout_aborts.2.2 _ 30 1 0 [] [] (by norm_num) rfl⟩

/-- C5 counterexample: requesting indices `[0, 5, 10]` (fps 11,
duration 1 s) where index 0's capture fails and indices 5 and 10
capture images labelled 5 and 10, the extractor returns the bare list
`[5, 10]`; the packet with frame index 5 is then composited onto
`originalFrames[indexOf 5] = originalFrames[1] = 10`, the image
captured for index 10, not the image captured for index 5. -/
theorem C5_association_counterexample :
    extractVideoFrames (fun i => if i = 0 then .captureFail else .captureOk i)
        [0, 5, 10] 11 1 = .ok [5, 10]
    ∧ frameForPacket [0, 5, 10] [5, 10] 5 = some 10
    ∧ frameForPacket [0, 5, 10] [5, 10] 5 ≠ some 5 := by
  refine ⟨?_, by decide, by decide⟩
  norm_num [extractVideoFrames, extractLoop]

/-- Unfolding `capturedImages` one requested index at a time. -/
theorem capturedImages_cons (oracle : Nat → SeekOutcome) (fps duration : ℚ)
    (idx : Nat) (rest : List Nat) :
    capturedImages oracle fps duration (idx :: rest)
      = if duration < (idx : ℚ) / fps then capturedImages oracle fps duration rest
        else
          match oracle idx with
          | .captureOk img => img :: capturedImages oracle fps duration rest
          | _ => capturedImages oracle fps duration rest := by
  rw [capturedImages, List.filterMap_cons]
  by_cases h : duration < (idx : ℚ) / fps
  · rw [if_pos h, if_pos h]; rfl
  · rw [if_neg h, if_neg h]
    cases oracle idx <;> rfl

/-- When no requested in-range index times out, the extraction loop
returns the accumulated prefix followed by the captured images of the
remaining indices, in request order. -/
theorem extractLoop_eq_ok (oracle : Nat → SeekOutcome) (fps duration : ℚ) :
    ∀ (idxs acc : List Nat),
      (∀ idx ∈ idxs, ¬duration < (idx : ℚ) / fps → oracle idx ≠ .timeout) →
      extractLoop oracle fps duration idxs acc
        = .ok (acc.reverse ++ capturedImages oracle fps duration idxs) := by
  intro idxs
  induction idxs with
  | nil => intro acc _; simp [extractLoop, capturedImages]
  | cons idx rest ih =>
    intro acc hno
    have hrest : ∀ i ∈ rest, ¬duration < (i : ℚ) / fps → oracle i ≠ .timeout :=
      fun i hi => hno i (List.mem_cons_of_mem _ hi)
    rw [capturedImages_cons]
    by_cases hskip : duration < (idx : ℚ) / fps
    · rw [extractLoop, if_pos hskip, if_pos hskip]
      exact ih acc hrest
    · have hhead := hno idx (List.mem_cons_self _ _) hskip
      rw [extractLoop, if_neg hskip, if_neg hskip]
      cases houtcome : oracle idx with
      | timeout => exact absurd houtcome hhead
      | captureOk img =>
        exact (ih (img :: acc) hrest).trans (by simp)
      | captureFail =>
        exact ih acc hrest

/-- When every index in the request list is in range and captures the
image `imgOf idx`, the captured-image list is the pointwise image of
the request list. -/
theorem capturedImages_eq_map (oracle : Nat → SeekOutcome) (fps duration : ℚ)
    (imgOf : Nat → Nat) :
    ∀ idxs : List Nat,
      (∀ idx ∈ idxs, ¬duration < (idx : ℚ) / fps
        ∧ oracle idx = .captureOk (imgOf idx)) →
      capturedImages oracle fps duration idxs = idxs.map imgOf := by
  intro idxs
  induction idxs with
  | nil => intro _; rfl
  | cons idx rest ih =>
    intro hall
    have hhead := hall idx (List.mem_cons_self _ _)
    rw [capturedImages, List.filterMap_cons, if_neg hhead.1, hhead.2, List.map_cons]
    have := ih fun i hi => hall i (List.mem_cons_of_mem _ hi)
    rw [capturedImages] at this
    rw [this]

/-- Looking up a member of the request list against the pointwise image
of that same list recovers its own image. -/
theorem frameForPacket_map (imgOf : Nat → Nat) :
    ∀ (idxs : List Nat) (k : Nat), k ∈ idxs →
      frameForPacket idxs (idxs.map imgOf) k = some (imgOf k) := by
  intro idxs
  induction idxs with
  | nil => intro k hk; cases hk
  | cons a rest ih =>
    intro k hk
    by_cases ha : a = k
    · subst ha
      simp [frameForPacket, jsIndexOf]
    · have hk' : k ∈ rest := by
        cases hk with
        | head => exact absurd rfl ha
        | tail _ h => exact h
      have := ih k hk'
      rw [frameForPacket] at this ⊢
      rw [jsIndexOf, if_neg ha]
      cases hfind : jsIndexOf rest k with
      | none => rw [hfind] at this; simp at this
      | some pos =>
        rw [hfind] at this
        simpa using this

/-- C5 (amended): when no in-range requested index times out, the
extractor returns exactly the captured images, one per index that
succeeded, in request order — but as a bare list with NO frame-index
association.  The compositing step then pairs the packet for frame
index `k` with the output at position `indexOf k` of the full request
list, which is the image captured for `k` only in the case that every
requested index succeeded; when an earlier index fails, later packets
are paired with the wrong images (see the counterexample). -/
theorem C5_extraction_order_association (oracle : Nat → SeekOutcome)
    (fps duration : ℚ) (idxs : List Nat) (imgOf : Nat → Nat) (k : Nat) :
    ((∀ idx ∈ idxs, ¬duration < (idx : ℚ) / fps → oracle idx ≠ .timeout) →
      extractVideoFrames oracle idxs fps duration
        = .ok (capturedImages oracle fps duration idxs))
    ∧ ((∀ idx ∈ idxs, ¬duration < (idx : ℚ) / fps
          ∧ oracle idx = .captureOk (imgOf idx)) → k ∈ idxs →
        frameForPacket idxs (capturedImages oracle fps duration idxs) k
          = some (imgOf k)) := by
  constructor
  · intro hno
    rw [extractVideoFrames, extractLoop_eq_ok oracle fps duration idxs [] hno]
    rfl
  · intro hall hk
    rw [capturedImages_eq_map oracle fps duration imgOf idxs hall]
    exact frameForPacket_map imgOf idxs k hk

/-- Witness for C5: all of `[0, 5, 10]` succeed (fps 11, duration 1 s)
capturing images `idx + 100`; the extractor returns them in order and
the packet for index 5 is paired with image 105. -/
theorem C5_extraction_order_association_witness :
    extractVideoFrames (fun i => .captureOk (i + 100)) [0, 5, 10] 11 1
      = .ok (capturedImages (fun i => .captureOk (i + 100)) 11 1 [0, 5, 10])
    ∧ frameForPacket [0, 5, 10]
        (capturedImages (fun i => .captureOk (i + 100)) 11 1 [0, 5, 10]) 5
      = some 105 := by
  have h := C5_extraction_order_association (fun i => .captureOk (i + 100))
    11 1 [0, 5, 10] (fun i => i + 100) 5
  refine ⟨h.1 ?_, h.2 ?_ (by decide)⟩
  · intro idx hidx _
    simp
  · intro idx hidx
    refine ⟨?_, rfl⟩
    fin_cases hidx <;> norm_num

/-- C6: during synchronized playback the progress is
`clamp(currentTime/duration, 0, 1)`, the displayed overlay index is
`min(frameCount-1, floor(progress*frameCount))`, the index is never out
of bounds (for positive frame counts it lies in `[0, frameCount)`), and
with `frameCount = 4`, `duration = 2 s`, `currentTime = 1.5 s` the
progress is 3/4 and the index is 3. -/
theorem C6_overlay_index (currentTime duration : ℚ) (frameCount : Nat) :
    (0 < frameCount →
      0 ≤ overlayFrameIndex currentTime duration frameCount
      ∧ overlayFrameIndex currentTime duration frameCount < frameCount)
    ∧ 0 ≤ playbackProgress currentTime duration
    ∧ playbackProgress currentTime duration ≤ 1
    ∧ playbackProgress (3/2) 2 = 3/4
    ∧ overlayFrameIndex (3/2) 2 4 = 3 := by
  refine ⟨?_, le_max_left _ _, ?_, ?_, ?_⟩
  · intro hfc
    constructor
    · rw [overlayFrameIndex, le_min_iff]
      refine ⟨by omega, Int.floor_nonneg.mpr ?_⟩
      exact mul_nonneg (le_max_left _ _) (by positivity)
    · exact lt_of_le_of_lt (min_le_left _ _) (by omega)
  · rw [playbackProgress]
    rcases le_total (currentTime / duration) 1 with h | h
    · rw [min_eq_right h]
      exact max_le (by norm_num) h
    · rw [min_eq_left h]
      exact max_le (by norm_num) le_rfl
  · norm_num [playbackProgress]
  · norm_num [overlayFrameIndex, playbackProgress]

/-- Witness for C6 at the spec's scenario `frameCount = 4`,
`duration = 2 s`, `currentTime = 1.5 s`. -/
theorem C6_overlay_index_witness :
    (0 ≤ overlayFrameIndex (3/2) 2 4 ∧ overlayFrameIndex (3/2) 2 4 < 4)
    ∧ overlayFrameIndex (3/2) 2 4 = 3 :=
  ⟨(C6_overlay_index (3/2) 2 4).1 (by norm_num),
   (C6_overlay_index (3/2) 2 4).2.2.2.2⟩

/-- C7 counterexample: two masks that BOTH carry object id 0 (positions
0 and 1 of the packet) get different colors — red and green — because
`objectIds[i] || i` treats the valid id 0 as falsy and falls back to
the mask's position.  The color is not determined solely by the object
id. -/
theorem C7_color_counterexample :
    maskOverlayColor [0, 0] 0 = (255, 0, 0)
    ∧ maskOverlayColor [0, 0] 1 = (0, 255, 0)
    ∧ maskOverlayColor [0, 0] 0 ≠ maskOverlayColor [0, 0] 1 := by
  refine ⟨by decide, by decide, by decide⟩

/-- C7 (amended): the overlay color of the mask at position `i` is the
fixed 10-color palette entry at `effectiveId % 10`, where the effective
id is the listed object id when it is present and NONZERO, and the
position `i` otherwise (`objectIds[i] || i` — id 0 is falsy in JS); so
two masks with the same nonzero object id always get the same color
regardless of position, while id 0 falls back to the position. -/
theorem C7_color_by_object_id (objectIds : List Nat) (i j a : Nat) :
    (objectIds.get? i = some a → objectIds.get? j = some a → a ≠ 0 →
      maskOverlayColor objectIds i = maskOverlayColor objectIds j)
    ∧ colorForObjectId a = palette.getD (a % 10) (0, 0, 0) := by
  constructor
  · intro hi hj ha
    rw [maskOverlayColor, maskOverlayColor, effectiveObjectId, effectiveObjectId,
      hi, hj]
    simp [ha]
  · rfl

/-- Witness for C7: two masks with the same nonzero object id 7 at
positions 0 and 1 get the same color. -/
theorem C7_color_by_object_id_witness :
    maskOverlayColor [7, 7] 0 = maskOverlayColor [7, 7] 1
    ∧ colorForObjectId 7 = palette.getD (7 % 10) (0, 0, 0) :=
  ⟨(C7_color_by_object_id [7, 7] 0 1 7).1 (by decide) (by decide) (by decide),
   (C7_color_by_object_id [7, 7] 0 1 7).2⟩

/-- C8: compositing a frame with an empty mask list returns the
original frame unchanged — the same dimensions and pixel function,
for every frame, object-id list and alpha. -/
theorem C8_empty_masks_identity (frameImage : Img) (objectIds : List Nat)
    (alpha : ℚ) :
    renderMasksOnFrame frameImage [] objectIds alpha = frameImage := rfl

/-- C9 counterexample: trimming `[0 s, 2 s]` at `currentTime = 1 s`,
the code reports 50 (a percentage clamped to `[0, 100]`), not the
spec's fraction `1/2` clamped to `[0, 1]`. -/
theorem C9_progress_counterexample :
    trimReportedProgress 0 2 1 = 50
    ∧ specTrimProgress 0 2 1 = 1/2
    ∧ trimReportedProgress 0 2 1 ≠ specTrimProgress 0 2 1 := by
  refine ⟨?_, ?_, ?_⟩ <;> norm_num [trimReportedProgress, specTrimProgress]

/-- C9 (amended): every reported trim progress value is 100 times the
spec's clamped fraction — i.e. `(currentTime-startTime)/(endTime-startTime)`
scaled to a percentage and clamped to `[0, 100]` — and the recorder is
stopped exactly when the video has ended or `currentTime ≥ endTime`. -/
theorem C9_trim_progress (startTime endTime currentTime : ℚ) (ended : Bool) :
    trimReportedProgress startTime endTime currentTime
      = 100 * specTrimProgress startTime endTime currentTime
    ∧ (ended = true → trimShouldStop ended currentTime endTime = true)
    ∧ (endTime ≤ currentTime → trimShouldStop ended currentTime endTime = true)
    ∧ (ended = false → currentTime < endTime →
        trimShouldStop ended currentTime endTime = false) := by
  refine ⟨?_, ?_, ?_, ?_⟩
  · rw [trimReportedProgress, specTrimProgress]
    set q : ℚ := (currentTime - startTime) / (endTime - startTime) with hq
    rcases le_total q 0 with h | h
    · rw [max_eq_left (by linarith), max_eq_left h]
      rw [min_eq_right (by norm_num), min_eq_right (by norm_num)]
      ring
    · rw [max_eq_right (by linarith), max_eq_right h]
      rcases le_total q 1 with h1 | h1
      · rw [min_eq_right (by linarith), min_eq_right h1]
        ring
      · rw [min_eq_left (by linarith), min_eq_left h1]
        ring
  · intro h; rw [trimShouldStop, h]; rfl
  · intro h; rw [trimShouldStop]; simp [h]
  · intro h1 h2; rw [trimShouldStop, h1]; simp [not_le.mpr h2]

/-- Witness for C9: trimming `[0 s, 2 s]` at 1 s reports
`100 * (1/2 clamped)`; a playhead at the end time stops the recorder
and one strictly before it (not ended) does not. -/
theorem C9_trim_progress_witness :
    trimReportedProgress 0 2 1 = 100 * specTrimProgress 0 2 1
    ∧ trimShouldStop true 1 2 = true
    ∧ trimShouldStop false 2 2 = true
    ∧ trimShouldStop false 1 2 = false :=
  ⟨(C9_trim_progress 0 2 1 false).1,
   (C9_trim_progress 0 2 1 true).2.1 rfl,
   (C9_trim_progress 0 2 2 false).2.2.1 le_rfl,
   (C9_trim_progress 0 2 1 false).2.2.2 rfl (by norm_num)⟩

/-- C10: the video assembler rejects a missing or empty frame sequence
with the error "No frames provided", and proceeds on any non-empty
sequence — empty input to assembly is an error at the public
interface. -/
theorem C10_empty_frames_rejected (fps : ℚ) (f : String) (rest : List String) :
    createVideoFromFrames none fps = .error "No frames provided"
    ∧ createVideoFromFrames (some []) fps = .error "No frames provided"
    ∧ createVideoFromFrames (some (f :: rest)) fps = .ok (f :: rest, fps) :=
  ⟨rfl, rfl, rfl⟩

end EagleAI
